import Mathlib

/-!
Shallow embedding of the hpfeeds-elastic ingester (`main.go`, package `main`).
The program subscribes to an hpfeeds broker channel, feeds every raw message
through a single consumer goroutine (`processPayloads`), decodes each JSON
payload into the shared Go struct `Payload`, enriches it with two geo-location
strings and an ingestion timestamp, appends an Elasticsearch bulk index
request, and calls the bulk request when the per-message counter `n` reaches a
multiple of 100 on a successfully decoded message.

Modelling conventions:
* A JSON value of the two kinds that occur in the `Payload` struct (strings,
  and numbers for Go `int`/`float64` fields) is `JVal`; numbers are exact
  rationals, standing for the decimal literals of the inbound JSON.
* The Go struct `Payload` is modelled as a function from field names to
  values, together with the declared `schema`: the ordered list of the
  struct fields with their JSON names, kinds and `omitempty` flags, exactly
  as declared in `main.go` lines 135-243.
* `encoding/json` behaviour: `json.Unmarshal` into a struct sets exactly the
  recognized, type-matching keys of the object and leaves every other struct
  field unchanged; unknown keys are ignored.  When it returns an error it can
  still have set some fields (documented behaviour: on a type mismatch it
  skips that field, completes the rest and returns the earliest error).
  `Msg.malformed raw filled` stands for a payload on which `Unmarshal`
  returns an error, where `filled` are the fields it nevertheless set;
  `Msg.valid obj` stands for a payload that unmarshals without error.
* `encoding/json` marshalling of the struct (used by the bulk `Doc(p)` call)
  emits the schema fields in declaration order, skipping an `omitempty` field
  whose value is the Go zero value.
* The elastic `BulkService` (`client.Bulk()`): `Add` appends a request;
  `Do` returns an error without touching the accumulated requests when it
  holds no actions or when the HTTP round trip fails, and clears the
  accumulated requests when the round trip succeeds (its documented
  contract: the list of bulk requests is cleared on success), whether or not
  the response reports per-document failures.  The store's reply to a flush
  is an oracle input (`FlushRes`) carried by each consumer input.
* Wall-clock time is an oracle input: each message carries the `DT` value
  that `time.Now()` yields at its enrichment step; `rfc3339` renders the Go
  layout `time.RFC3339` (`2006-01-02T15:04:05Z07:00`).
-/

/-- Kind of a JSON-mapped Go struct field: `string`, or numeric
(`int`/`float64`). -/
inductive JKind where
  | str
  | num
deriving DecidableEq

/-- A JSON value as it appears in a decoded record. -/
inductive JVal where
  | str (s : String)
  | num (q : ℚ)
deriving DecidableEq

/-- Kind of a value. -/
def kindOf : JVal → JKind
  | .str _ => .str
  | .num _ => .num

/-- Go zero value of a field kind (`""` for strings, `0` for numbers). -/
def zeroVal : JKind → JVal
  | .str => .str ""
  | .num => .num 0

/-- Whether a value is the Go zero value of its kind (what `omitempty`
tests); a rational is zero exactly when its numerator is. -/
def isZero : JVal → Bool
  | .str s => s == ""
  | .num q => q.num == 0

/-- One field of the `Payload` struct: its JSON name, kind, and whether the
struct tag carries `omitempty`. -/
structure FieldSpec where
  name : String
  kind : JKind
  omitEmpty : Bool
deriving DecidableEq

/-- The `Payload` struct of `main.go` lines 135-243: every field with its
JSON tag, in declaration order. -/
def schema : List FieldSpec := [
  ⟨"app", .str, false⟩,
  ⟨"dest_area_code", .num, false⟩,
  ⟨"dest_city", .str, false⟩,
  ⟨"dest_country_code", .str, false⟩,
  ⟨"dest_country_code3", .str, false⟩,
  ⟨"dest_country_name", .str, false⟩,
  ⟨"dest_dma_code", .num, false⟩,
  ⟨"dest_latitude", .num, false⟩,
  ⟨"dest_location", .str, false⟩,
  ⟨"dest_longitude", .num, false⟩,
  ⟨"dest_metro_code", .num, false⟩,
  ⟨"dest_org", .str, false⟩,
  ⟨"dest_port", .num, false⟩,
  ⟨"dest_postal_code", .str, false⟩,
  ⟨"dest_region", .str, false⟩,
  ⟨"dest_region_name", .str, false⟩,
  ⟨"dest_time_zone", .str, false⟩,
  ⟨"dionaea_action", .str, true⟩,
  ⟨"direction", .str, false⟩,
  ⟨"elastichoney_form", .str, true⟩,
  ⟨"elastichoney_payload", .str, true⟩,
  ⟨"eth_dst", .str, true⟩,
  ⟨"eth_src", .str, true⟩,
  ⟨"ids_type", .str, false⟩,
  ⟨"ip_id", .num, true⟩,
  ⟨"ip_len", .num, true⟩,
  ⟨"ip_tos", .num, true⟩,
  ⟨"ip_ttl", .num, true⟩,
  ⟨"mhn_ip", .str, false⟩,
  ⟨"mhn_uuid", .str, false⟩,
  ⟨"p0f_app", .str, true⟩,
  ⟨"p0f_link", .str, true⟩,
  ⟨"p0f_os", .str, true⟩,
  ⟨"p0f_uptime", .str, true⟩,
  ⟨"protocol", .str, false⟩,
  ⟨"request_url", .str, true⟩,
  ⟨"sensor", .str, false⟩,
  ⟨"severity", .str, false⟩,
  ⟨"signature", .str, false⟩,
  ⟨"snort_classification", .num, true⟩,
  ⟨"snort_header", .str, true⟩,
  ⟨"snort_priority", .num, true⟩,
  ⟨"src_area_code", .num, false⟩,
  ⟨"src_city", .str, false⟩,
  ⟨"src_country_code", .str, false⟩,
  ⟨"src_country_code3", .str, false⟩,
  ⟨"src_country_name", .str, false⟩,
  ⟨"src_dma_code", .num, false⟩,
  ⟨"src_ip", .str, false⟩,
  ⟨"src_latitude", .num, false⟩,
  ⟨"src_location", .str, false⟩,
  ⟨"src_longitude", .num, false⟩,
  ⟨"src_metro_code", .num, false⟩,
  ⟨"src_org", .str, false⟩,
  ⟨"src_port", .num, false⟩,
  ⟨"src_postal_code", .str, false⟩,
  ⟨"src_region", .str, false⟩,
  ⟨"src_region_name", .str, false⟩,
  ⟨"src_time_zone", .str, false⟩,
  ⟨"suricata_action", .str, true⟩,
  ⟨"suricata_signature_id", .num, true⟩,
  ⟨"suricata_signature_rev", .num, true⟩,
  ⟨"ssh_password", .str, true⟩,
  ⟨"ssh_username", .str, true⟩,
  ⟨"ssh_version", .str, true⟩,
  ⟨"tcp_flags", .str, true⟩,
  ⟨"tcp_len", .num, true⟩,
  ⟨"timestamp", .str, false⟩,
  ⟨"transport", .str, false⟩,
  ⟨"type", .str, false⟩,
  ⟨"udp_len", .num, true⟩,
  ⟨"user_agent", .str, true⟩,
  ⟨"vendor_product", .str, false⟩]

/-- A `Payload` struct value: the current value of each field, addressed by
JSON name.  Only the names occurring in `schema` are ever read or written. -/
abbrev Payload := String → JVal

/-- The declared kind of a JSON name, `none` for names outside the struct. -/
def schemaKind (k : String) : Option JKind :=
  (schema.find? (fun f => f.name == k)).map (fun f => f.kind)

/-- The zero `Payload`, i.e. `var p Payload` before any message. -/
def zeroPayload : Payload :=
  fun k => match schemaKind k with
    | some t => zeroVal t
    | none => JVal.num 0

/-- Assign one decoded JSON entry to the struct: recognized, type-matching
names are overwritten, anything else is left unchanged (unknown JSON keys are
ignored by `json.Unmarshal`, mismatching kinds are not assigned). -/
def setField (p : Payload) (k : String) (v : JVal) : Payload :=
  if schemaKind k = some (kindOf v) then
    fun j => if j = k then v else p j
  else p

/-- `json.Unmarshal(mes.Payload, &p)`: fold the object entries, in order,
over the current struct value.  Fields absent from the object keep the value
they had from earlier messages. -/
def unmarshal (p : Payload) (obj : List (String × JVal)) : Payload :=
  obj.foldl (fun acc kv => setField acc kv.1 kv.2) p

/-- Read a field as a Go string (fields of kind `.str` always hold a
`JVal.str`). -/
def getStr (p : Payload) (k : String) : String :=
  match p k with
  | .str s => s
  | _ => ""

/-- Read a field as a Go number (fields of kind `.num` always hold a
`JVal.num`). -/
def getNum (p : Payload) (k : String) : ℚ :=
  match p k with
  | .num q => q
  | _ => 0

/-- Read a field of the struct. -/
def getField (p : Payload) (k : String) : JVal := p k

/-- A marshalled outbound document: entries in struct declaration order. -/
abbrev Doc := List (String × JVal)

/-- `encoding/json` marshalling of the struct, as performed on the value
handed to `Doc(p)`: all schema fields in declaration order, skipping
`omitempty` fields holding their zero value. -/
def marshalFields (p : Payload) : Doc :=
  (schema.filter (fun f => !(f.omitEmpty && isZero (p f.name)))).map
    (fun f => (f.name, p f.name))

/-- Decimal digits of a natural number (fuel-driven). -/
def natDigitsAux : ℕ → ℕ → List Char
  | 0, _ => []
  | fuel + 1, n =>
      if n < 10 then [Char.ofNat (48 + n)]
      else natDigitsAux fuel (n / 10) ++ [Char.ofNat (48 + n % 10)]

/-- Decimal rendering of a natural number. -/
def natStr (n : ℕ) : String := String.mk (natDigitsAux (n + 1) n)

/-- Left-pad a string with zeros to the given width. -/
def padZeros (w : ℕ) (s : String) : String :=
  String.mk (List.replicate (w - s.length) '0') ++ s

/-- The magnitude of `q`, scaled by `10^6` and rounded to the nearest
integer with ties to even — the rounding `strconv` performs when `fmt`
formats a value in fixed notation with six fractional digits.  Computed on
the numerator and denominator of the (canonically represented) rational:
`|q| * 10^6 = n / d` with `n := |num| * 10^6`, `d := den`. -/
def rhe6 (q : ℚ) : ℕ :=
  let n := q.num.natAbs * 1000000
  let d := q.den
  if 2 * (n % d) < d then n / d
  else if d < 2 * (n % d) then n / d + 1
  else if (n / d) % 2 = 0 then n / d else n / d + 1

/-- Go `fmt.Sprintf("%f", x)` for a `float64`: fixed notation with six
fractional digits (the default precision of the `%f` verb), sign followed by
the rounded magnitude. -/
def fmt6 (q : ℚ) : String :=
  let m := rhe6 q
  (if q.num < 0 then "-" else "") ++ natStr (m / 1000000) ++ "." ++
    padZeros 6 (natStr (m % 1000000))

/-- `fmt.Sprintf("%f,%f", lat, lon)`, the geo-location string of
`processPayloads`. -/
def locString (lat lon : ℚ) : String := fmt6 lat ++ "," ++ fmt6 lon

/-- A wall-clock instant as the components that the `time.RFC3339` layout
renders: calendar date, time of day, and the zone offset in minutes. -/
structure DT where
  year : ℕ
  month : ℕ
  day : ℕ
  hour : ℕ
  minute : ℕ
  second : ℕ
  offMin : ℤ

/-- Two-digit zero-padded decimal. -/
def pad2 (n : ℕ) : String := padZeros 2 (natStr n)

/-- `t.Format(time.RFC3339)`: layout `2006-01-02T15:04:05Z07:00`. -/
def rfc3339 (t : DT) : String :=
  padZeros 4 (natStr t.year) ++ "-" ++ pad2 t.month ++ "-" ++ pad2 t.day ++
    "T" ++ pad2 t.hour ++ ":" ++ pad2 t.minute ++ ":" ++ pad2 t.second ++
    (if t.offMin = 0 then "Z"
     else (if t.offMin < 0 then "-" else "+") ++
       pad2 (t.offMin.natAbs / 60) ++ ":" ++ pad2 (t.offMin.natAbs % 60))

/-- The three enrichment assignments of `processPayloads` lines 260-262, in
source order: `p.DestLocation`, `p.SrcLocation`, `p.Timestamp`. -/
def enrich (p : Payload) (now : DT) : Payload :=
  let p1 := setField p "dest_location"
    (.str (locString (getNum p "dest_latitude") (getNum p "dest_longitude")))
  let p2 := setField p1 "src_location"
    (.str (locString (getNum p1 "src_latitude") (getNum p1 "src_longitude")))
  setField p2 "timestamp" (.str (rfc3339 now))

/-- `MHNIndexName`, the index name constant of `main.go` line 17. -/
def MHNIndexName : String := "mhn-community-data-"

/-- `fmt.Sprintf("%s%s", MHNIndexName, app)`: the destination index for an
application identifier. -/
def mhnIndex (app : String) : String := MHNIndexName ++ app

/-- `elastic.NewBulkIndexRequest().Index(index).Type("_doc").Doc(p)`: the
pair of destination index and marshalled document appended to the bulk
request (the document is snapshotted from the struct value at `Add` time). -/
def buildReq (p : Payload) : String × Doc :=
  (mhnIndex (getStr p "app"), marshalFields p)

/-- The accumulated bulk request: one (index, document) action per record. -/
abbrev Bulk := List (String × Doc)

/-- The store's reply to one `bulkRequest.Do(ctx)` call: a transport-level
error, or an HTTP-success response carrying the error details of the failed
documents (`res.Errors` is set exactly when that list is nonempty, and
`res.Failed()` lists the failures in document order). -/
inductive FlushRes where
  | transportErr
  | ok (failed : List String)
deriving DecidableEq

/-- The log statements the consumer loop can emit. -/
inductive LogEvt where
  | unmarshalErr
  | rawPayload (raw : String)
  | processingBatch
  | bulkTransportErr
  | bulkFirstFailure (e : String)
  | bulkDone (n : ℕ)
deriving DecidableEq

/-- One raw message as classified by `json.Unmarshal`: `valid obj` is a
payload that unmarshals without error into the entries `obj`; `malformed raw
filled` is a payload on which `Unmarshal` returns an error after having set
the (recognized, type-matching) entries `filled` — per the `encoding/json`
contract it skips a mismatching value, completes the rest, and reports the
earliest error, so a failing payload can still write fields. -/
inductive Msg where
  | malformed (raw : String) (filled : List (String × JVal))
  | valid (obj : List (String × JVal))

/-- One consumer-loop input: the classified message, the `time.Now()` oracle
at its enrichment, and the store's reply oracle should this message trigger a
flush. -/
structure Input where
  msg : Msg
  now : DT
  res : FlushRes

/-- The state of `processPayloads`: the message counter `n`, the accumulated
bulk request, and the shared `var p Payload` struct, which is declared
outside the message loop and therefore carries values across iterations. -/
structure ConsState where
  n : ℕ
  bulk : Bulk
  p : Payload

/-- The initial consumer state (`n = 0`, empty bulk request, zero struct). -/
def consInit : ConsState := ⟨0, [], zeroPayload⟩

/-- One `bulkRequest.Do(ctx)` call together with the response handling of
`processPayloads` lines 269-278.  The elastic `BulkService.Do` errors out
without touching the request list when it holds no actions; on a transport
error the accumulated actions are likewise retained; on HTTP success the
request list is cleared (the service resets itself), and the code then either
logs the first entry of `res.Failed()` (when `res.Errors` is set) or logs the
running record count. -/
def doFlush (b : Bulk) (res : FlushRes) (n : ℕ) : Bulk × List LogEvt :=
  if b.isEmpty then (b, [.processingBatch, .bulkTransportErr])
  else
    match res with
    | .transportErr => (b, [.processingBatch, .bulkTransportErr])
    | .ok failed =>
        ([], [.processingBatch] ++
          (match failed with
           | [] => [.bulkDone n]
           | e :: _ => [.bulkFirstFailure e]))

/-- One iteration of the `for mes := range messages` loop of
`processPayloads`: increment `n`; on an unmarshal error log the error and the
raw payload and `continue` (which skips the flush check); otherwise enrich
the shared struct, append the bulk index request, and when `n` is a multiple
of 100 call the accumulated bulk request.  Returns the new state, the list of
flush calls made (each with the batch passed to `Do`), and the log output. -/
def consStep (s : ConsState) (i : Input) : ConsState × List Bulk × List LogEvt :=
  match i.msg with
  | .malformed raw filled =>
      (⟨s.n + 1, s.bulk, unmarshal s.p filled⟩, [], [.unmarshalErr, .rawPayload raw])
  | .valid obj =>
      let p2 := enrich (unmarshal s.p obj) i.now
      let b2 := s.bulk ++ [buildReq p2]
      if (s.n + 1) % 100 = 0 then
        (⟨s.n + 1, (doFlush b2 i.res (s.n + 1)).1, p2⟩, [b2],
          (doFlush b2 i.res (s.n + 1)).2)
      else
        (⟨s.n + 1, b2, p2⟩, [], [])

/-- Run the consumer loop over a list of inputs, collecting all flush calls
and log output in order. -/
def consRun (s : ConsState) (l : List Input) : ConsState × List Bulk × List LogEvt :=
  match l with
  | [] => (s, [], [])
  | i :: rest =>
      ((consRun (consStep s i).1 rest).1,
        (consStep s i).2.1 ++ (consRun (consStep s i).1 rest).2.1,
        (consStep s i).2.2 ++ (consRun (consStep s i).1 rest).2.2)

/-- Reference fold describing what the loop appends to the bulk request:
the documents produced for the valid messages of a window, in arrival order,
threading the shared struct exactly as the loop does (also through the fields
a malformed message managed to set). -/
def collectDocs (p : Payload) (l : List Input) : List (String × Doc) × Payload :=
  match l with
  | [] => ([], p)
  | i :: rest =>
      match i.msg with
      | .malformed _ filled => collectDocs (unmarshal p filled) rest
      | .valid obj =>
          let p2 := enrich (unmarshal p obj) i.now
          ((buildReq p2) :: (collectDocs p2 rest).1, (collectDocs p2 rest).2)

/-- Observable actions of `main`'s supervisor loop (`main.go` lines 79-91). -/
inductive SupAction where
  | print (s : String)
  | connect
  | subscribe (channel : String)
  | awaitDisconnect
  | sleepSeconds (n : ℕ)
deriving DecidableEq

/-- `time.Sleep(10 * time.Second)`: the fixed reconnect delay. -/
def reconnectDelaySeconds : ℕ := 10

/-- The body of the unconditional `for` loop in `main`: announce, connect,
announce, subscribe, block on `hp.Disconnected`, announce, sleep 10 s. -/
def supLoopBody (channel : String) : List SupAction :=
  [.print "Connecting to hpfeeds server.",
   .connect,
   .print "Connected.",
   .subscribe channel,
   .awaitDisconnect,
   .print "Disconnected, attempting to reconnect in 10 seconds...",
   .sleepSeconds reconnectDelaySeconds]

/-- The first `k` iterations of the supervisor loop. -/
def supRun (channel : String) : ℕ → List SupAction
  | 0 => []
  | k + 1 => supRun channel k ++ supLoopBody channel

/-- Whether a supervisor action is a sleep. -/
def isSleep : SupAction → Bool
  | .sleepSeconds _ => true
  | _ => false

/-- A fixed instant used by the concrete scenarios below. -/
def dt0 : DT := ⟨2026, 10, 11, 0, 0, 0, 0⟩

/-- A malformed message that sets no fields (e.g. a payload failing with a
syntax error at its first byte), with uninteresting oracles. -/
def mIn : Input := ⟨.malformed "bad" [], dt0, .ok []⟩

/-- Scenario for C2: 99 malformed messages followed by one valid empty
object whose flush hits a transport error. -/
def c2in : List Input := List.replicate 99 mIn ++ [⟨.valid [], dt0, .transportErr⟩]

/-- The raw bytes of a payload that makes `json.Unmarshal` fail with a type
mismatch on `dest_port` (an `int` field receiving a string) after it has set
`src_latitude` (documented `encoding/json` behaviour: the mismatching field
is skipped, the rest is completed, the earliest error is returned). -/
def c3raw : String := "\x7b\"src_latitude\": 99.5, \"dest_port\": \"oops\"\x7d"

/-- The malformed message for the C3 scenario: dropped by the loop, but it
has already written `src_latitude = 99.5` into the shared struct. -/
def c3m1 : Input := ⟨.malformed c3raw [("src_latitude", .num (mkRat 199 2))], dt0, .ok []⟩

/-- A subsequent valid message carrying only `app`, no coordinates. -/
def c3m2 : Input := ⟨.valid [("app", .str "cowrie")], dt0, .ok []⟩

/-- A valid message with explicit source coordinates (the worked example of
the spec: lat 37.7749, lon -122.4194). -/
def c4m1 : Input := ⟨.valid [("app", .str "cowrie"),
  ("src_latitude", .num (mkRat 377749 10000)),
  ("src_longitude", .num (mkRat (-1224194) 10000))], dt0, .ok []⟩

/-- A valid message with no coordinate fields at all. -/
def c4m2 : Input := ⟨.valid [("app", .str "cowrie")], dt0, .ok []⟩

/-- An inbound object carrying a recognized field and one honeypot-specific
field outside the `Payload` schema. -/
def c7obj : List (String × JVal) := [("app", .str "cowrie"), ("honeypot_custom", .str "x")]

/-- An inbound object exercising every marshalling clause at once: a schema
field without `omitempty` (`app`), a schema field with `omitempty` carrying a
nonzero value (`ssh_password`), and a field outside the schema
(`honeypot_custom`); every other schema field is absent. -/
def c7objFull : List (String × JVal) :=
  [("app", .str "cowrie"), ("ssh_password", .str "hunter2"), ("honeypot_custom", .str "x")]

/-- A consumer state one message short of the flush boundary, used to
instantiate the flush theorems. -/
def s99 : ConsState := ⟨99, [], zeroPayload⟩

/-! Helper lemmas about the embedded operations. -/

lemma schema_names_nodup : (schema.map (fun f => f.name)).Nodup := by decide

lemma setField_ne (p : Payload) (k : String) (v : JVal) (j : String) (h : j ≠ k) :
    setField p k v j = p j := by
  by_cases hc : schemaKind k = some (kindOf v) <;> simp [setField, hc, h]

lemma setField_same (p : Payload) (k : String) (v : JVal)
    (h : schemaKind k = some (kindOf v)) : setField p k v k = v := by
  simp [setField, h]

lemma unmarshal_not_mem (obj : List (String × JVal)) (p : Payload) (k : String)
    (h : k ∉ obj.map Prod.fst) : unmarshal p obj k = p k := by
  induction obj generalizing p with
  | nil => rfl
  | cons e t ih =>
      simp only [List.map_cons, List.mem_cons, not_or] at h
      calc unmarshal p (e :: t) k
          = unmarshal (setField p e.1 e.2) t k := rfl
        _ = setField p e.1 e.2 k := ih (setField p e.1 e.2) h.2
        _ = p k := setField_ne p e.1 e.2 k h.1

lemma unmarshal_mem (obj : List (String × JVal)) (p : Payload) (k : String) (v : JVal)
    (hmem : (k, v) ∈ obj) (hnd : (obj.map Prod.fst).Nodup)
    (hsk : schemaKind k = some (kindOf v)) :
    unmarshal p obj k = v := by
  induction obj generalizing p with
  | nil => cases hmem
  | cons e t ih =>
      rw [List.map_cons, List.nodup_cons] at hnd
      rcases List.mem_cons.mp hmem with heq | hmemt
      · cases heq.symm
        calc unmarshal p ((k, v) :: t) k
            = unmarshal (setField p k v) t k := rfl
          _ = setField p k v k := unmarshal_not_mem t _ k hnd.1
          _ = v := setField_same p k v hsk
      · exact ih (setField p e.1 e.2) hmemt hnd.2

lemma enrich_ne (p : Payload) (now : DT) (k : String)
    (h1 : k ≠ "dest_location") (h2 : k ≠ "src_location") (h3 : k ≠ "timestamp") :
    enrich p now k = p k := by
  simp only [enrich]
  rw [setField_ne _ _ _ _ h3, setField_ne _ _ _ _ h2, setField_ne _ _ _ _ h1]

lemma eq_head_of_name (g f : FieldSpec) (t : List FieldSpec)
    (hgt : g.name ∉ t.map (fun x => x.name)) (hf : f ∈ g :: t) (h : f.name = g.name) :
    f = g := by
  rcases List.mem_cons.mp hf with rfl | hft
  · rfl
  · exact absurd (h ▸ List.mem_map_of_mem (fun x => x.name) hft) hgt

lemma find_of_mem (l : List FieldSpec) (f : FieldSpec) (k : String)
    (hnd : (l.map (fun g => g.name)).Nodup) (hf : f ∈ l) (hk : f.name = k) :
    l.find? (fun g => g.name == k) = some f := by
  induction l with
  | nil => cases hf
  | cons g t ih =>
      rw [List.map_cons, List.nodup_cons] at hnd
      by_cases hg : g.name = k
      · have hfg : f = g := eq_head_of_name g f t hnd.1 hf (hk.trans hg.symm)
        subst hfg
        simp [List.find?, hg]
      · have hft : f ∈ t := by
          rcases List.mem_cons.mp hf with rfl | hft
          · exact absurd hk hg
          · exact hft
        have hb : (g.name == k) = false := beq_eq_false_iff_ne.mpr hg
        simp [List.find?, hb]
        exact ih hnd.2 hft

lemma schemaKind_of_mem (f : FieldSpec) (k : String) (hf : f ∈ schema) (hk : f.name = k) :
    schemaKind k = some f.kind := by
  unfold schemaKind
  rw [find_of_mem schema f k schema_names_nodup hf hk]
  rfl

lemma lookup_cons_self {β : Type} (k : String) (b : β) (es : List (String × β)) :
    List.lookup k ((k, b) :: es) = some b := by
  simp [List.lookup]

lemma lookup_cons_ne {β : Type} (k a : String) (b : β) (es : List (String × β))
    (h : (k == a) = false) :
    List.lookup k ((a, b) :: es) = List.lookup k es := by
  simp [List.lookup, h]

lemma lookup_marshal_mem (l : List FieldSpec) (p : Payload) (k : String) (f : FieldSpec)
    (hnd : (l.map (fun g => g.name)).Nodup) (hf : f ∈ l) (hk : f.name = k)
    (ho : f.omitEmpty = false) :
    List.lookup k ((l.filter (fun g => !(g.omitEmpty && isZero (p g.name)))).map
      (fun g => (g.name, p g.name))) = some (p k) := by
  induction l with
  | nil => cases hf
  | cons g t ih =>
      rw [List.map_cons, List.nodup_cons] at hnd
      by_cases hg : g.name = k
      · have hfg : f = g := eq_head_of_name g f t hnd.1 hf (hk.trans hg.symm)
        have ho' : g.omitEmpty = false := hfg ▸ ho
        have hpg : (!(g.omitEmpty && isZero (p g.name))) = true := by simp [ho']
        rw [List.filter_cons, if_pos hpg, List.map_cons, hg, lookup_cons_self]
      · have hft : f ∈ t := by
          rcases List.mem_cons.mp hf with rfl | hft
          · exact absurd hk hg
          · exact hft
        have hb : (k == g.name) = false := beq_eq_false_iff_ne.mpr (fun h => hg h.symm)
        by_cases hpg : (!(g.omitEmpty && isZero (p g.name))) = true
        · rw [List.filter_cons, if_pos hpg, List.map_cons, lookup_cons_ne _ _ _ _ hb]
          exact ih hnd.2 hft
        · rw [List.filter_cons, if_neg hpg]
          exact ih hnd.2 hft

lemma lookup_marshal_none (l : List FieldSpec) (p : Payload) (k : String)
    (h : k ∉ l.map (fun g => g.name)) :
    List.lookup k ((l.filter (fun g => !(g.omitEmpty && isZero (p g.name)))).map
      (fun g => (g.name, p g.name))) = none := by
  induction l with
  | nil => rfl
  | cons g t ih =>
      simp only [List.map_cons, List.mem_cons, not_or] at h
      have hb : (k == g.name) = false := beq_eq_false_iff_ne.mpr h.1
      by_cases hpg : (!(g.omitEmpty && isZero (p g.name))) = true
      · rw [List.filter_cons, if_pos hpg, List.map_cons, lookup_cons_ne _ _ _ _ hb]
        exact ih h.2
      · rw [List.filter_cons, if_neg hpg]
        exact ih h.2

lemma lookup_marshal_omit (l : List FieldSpec) (p : Payload) (k : String) (f : FieldSpec)
    (hnd : (l.map (fun g => g.name)).Nodup) (hf : f ∈ l) (hk : f.name = k)
    (ho : f.omitEmpty = true) :
    List.lookup k ((l.filter (fun g => !(g.omitEmpty && isZero (p g.name)))).map
      (fun g => (g.name, p g.name)))
      = (if isZero (p k) = true then none else some (p k)) := by
  induction l with
  | nil => cases hf
  | cons g t ih =>
      rw [List.map_cons, List.nodup_cons] at hnd
      by_cases hg : g.name = k
      · have hfg : f = g := eq_head_of_name g f t hnd.1 hf (hk.trans hg.symm)
        have ho' : g.omitEmpty = true := hfg ▸ ho
        by_cases hz : isZero (p k) = true
        · have hpg : ¬((!(g.omitEmpty && isZero (p g.name))) = true) := by
            rw [ho', hg, hz]
            simp
          rw [List.filter_cons, if_neg hpg, if_pos hz]
          exact lookup_marshal_none t p k (hg ▸ hnd.1)
        · have hzf : isZero (p k) = false := by simpa using hz
          have hpg : (!(g.omitEmpty && isZero (p g.name))) = true := by
            rw [ho', hg, hzf]
            rfl
          rw [List.filter_cons, if_pos hpg, List.map_cons, hg, lookup_cons_self,
            if_neg hz]
      · have hft : f ∈ t := by
          rcases List.mem_cons.mp hf with rfl | hft
          · exact absurd hk hg
          · exact hft
        have hb : (k == g.name) = false := beq_eq_false_iff_ne.mpr (fun h => hg h.symm)
        by_cases hpg : (!(g.omitEmpty && isZero (p g.name))) = true
        · rw [List.filter_cons, if_pos hpg, List.map_cons, lookup_cons_ne _ _ _ _ hb]
          exact ih hnd.2 hft
        · rw [List.filter_cons, if_neg hpg]
          exact ih hnd.2 hft

lemma consStep_malformed (s : ConsState) (raw : String) (filled : List (String × JVal))
    (now : DT) (res : FlushRes) :
    consStep s ⟨.malformed raw filled, now, res⟩ =
      (⟨s.n + 1, s.bulk, unmarshal s.p filled⟩, [], [.unmarshalErr, .rawPayload raw]) := rfl

lemma consStep_valid_noflush (s : ConsState) (obj : List (String × JVal)) (now : DT)
    (res : FlushRes) (h : (s.n + 1) % 100 ≠ 0) :
    consStep s ⟨.valid obj, now, res⟩ =
      (⟨s.n + 1, s.bulk ++ [buildReq (enrich (unmarshal s.p obj) now)],
        enrich (unmarshal s.p obj) now⟩, [], []) := by
  simp [consStep, h]

lemma consStep_valid_flush (s : ConsState) (obj : List (String × JVal)) (now : DT)
    (res : FlushRes) (h : (s.n + 1) % 100 = 0) :
    consStep s ⟨.valid obj, now, res⟩ =
      (⟨s.n + 1,
        (doFlush (s.bulk ++ [buildReq (enrich (unmarshal s.p obj) now)]) res (s.n + 1)).1,
        enrich (unmarshal s.p obj) now⟩,
       [s.bulk ++ [buildReq (enrich (unmarshal s.p obj) now)]],
       (doFlush (s.bulk ++ [buildReq (enrich (unmarshal s.p obj) now)]) res (s.n + 1)).2) := by
  simp [consStep, h]

lemma consStep_counter (s : ConsState) (i : Input) : (consStep s i).1.n = s.n + 1 := by
  rcases i with ⟨m, now, res⟩
  cases m with
  | malformed raw filled => rfl
  | valid obj =>
      by_cases h : (s.n + 1) % 100 = 0
      · rw [consStep_valid_flush s obj now res h]
      · rw [consStep_valid_noflush s obj now res h]

lemma consRun_append (a b : List Input) (s : ConsState) :
    (consRun s (a ++ b)).1 = (consRun (consRun s a).1 b).1
    ∧ (consRun s (a ++ b)).2.1 = (consRun s a).2.1 ++ (consRun (consRun s a).1 b).2.1 := by
  induction a generalizing s with
  | nil => simp [consRun]
  | cons i t ih =>
      simp only [List.cons_append, consRun, List.append_eq]
      exact ⟨(ih (consStep s i).1).1,
        by rw [(ih (consStep s i).1).2, List.append_assoc]⟩

lemma collect_append (a b : List Input) (p : Payload) :
    (collectDocs p (a ++ b)).1
        = (collectDocs p a).1 ++ (collectDocs (collectDocs p a).2 b).1
    ∧ (collectDocs p (a ++ b)).2 = (collectDocs (collectDocs p a).2 b).2 := by
  induction a generalizing p with
  | nil => simp [collectDocs]
  | cons i t ih =>
      rcases i with ⟨m, now, res⟩
      cases m with
      | malformed raw filled =>
          simpa [collectDocs] using ih (unmarshal p filled)
      | valid obj =>
          simpa [collectDocs] using ih (enrich (unmarshal p obj) now)

lemma consRun_no_flush (l : List Input) (s : ConsState)
    (h : ∀ j, j < l.length → (s.n + j + 1) % 100 ≠ 0) :
    (consRun s l).1.n = s.n + l.length
    ∧ (consRun s l).1.bulk = s.bulk ++ (collectDocs s.p l).1
    ∧ (consRun s l).1.p = (collectDocs s.p l).2
    ∧ (consRun s l).2.1 = [] := by
  induction l generalizing s with
  | nil => simp [consRun, collectDocs]
  | cons i t ih =>
      have h0 : (s.n + 1) % 100 ≠ 0 := by
        have := h 0 (by simp)
        simpa using this
      have ht : ∀ s' : ConsState, s'.n = s.n + 1 →
          ∀ j, j < t.length → (s'.n + j + 1) % 100 ≠ 0 := by
        intro s' hs' j hj
        have heq : s'.n + j + 1 = s.n + (j + 1) + 1 := by omega
        rw [heq]
        exact h (j + 1) (by simp; omega)
      rcases i with ⟨m, now, res⟩
      cases m with
      | malformed raw filled =>
          obtain ⟨ihn, ihb, ihp, ihf⟩ :=
            ih ⟨s.n + 1, s.bulk, unmarshal s.p filled⟩ (ht _ rfl)
          refine ⟨?_, ?_, ?_, ?_⟩ <;>
            (simp [consRun, consStep_malformed, collectDocs, ihn, ihb, ihp, ihf]; try omega)
      | valid obj =>
          obtain ⟨ihn, ihb, ihp, ihf⟩ :=
            ih ⟨s.n + 1, s.bulk ++ [buildReq (enrich (unmarshal s.p obj) now)],
              enrich (unmarshal s.p obj) now⟩ (ht _ rfl)
          refine ⟨?_, ?_, ?_, ?_⟩ <;>
            (simp [consRun, consStep_valid_noflush s obj now res h0, collectDocs,
              ihn, ihb, ihp, ihf]; try omega)

lemma isEmpty_append_singleton {α : Type} (l : List α) (x : α) :
    (l ++ [x]).isEmpty = false := by
  cases l <;> rfl

lemma doFlush_transportErr (b : Bulk) (n : ℕ) (h : b.isEmpty = false) :
    doFlush b .transportErr n = (b, [.processingBatch, .bulkTransportErr]) := by
  simp [doFlush, h]

/-- C5: for every application identifier `a` (including the empty string),
the destination index name is the fixed prefix `"mhn-community-data-"`
concatenated with `a`; the computation is a total function, and the bulk
request built for a record routes it to the index computed from its `app`
field. -/
theorem routing_law :
    (∀ a : String, mhnIndex a = "mhn-community-data-" ++ a)
    ∧ mhnIndex "" = "mhn-community-data-"
    ∧ (∀ p : Payload, (buildReq p).1 = "mhn-community-data-" ++ getStr p "app") :=
  ⟨fun _ => rfl, by decide, fun _ => rfl⟩

/-- C6: enrichment always sets the `timestamp` field to the RFC 3339
rendering of the clock value read at the moment of enrichment, for every
prior struct state and every inbound object (hence independently of any
sensor-supplied `timestamp` and of the publication time); and `rfc3339`
renders the Go `time.RFC3339` layout. -/
theorem timestamp_enrichment :
    (∀ (p : Payload) (now : DT),
        getField (enrich p now) "timestamp" = JVal.str (rfc3339 now))
    ∧ (∀ (p : Payload) (obj : List (String × JVal)) (now : DT),
        getField (enrich (unmarshal p obj) now) "timestamp" = JVal.str (rfc3339 now))
    ∧ rfc3339 ⟨2026, 10, 11, 8, 30, 5, 0⟩ = "2026-10-11T08:30:05Z" :=
  ⟨fun _ _ => rfl, fun _ _ _ => rfl, by decide⟩

/-- C10: for every prior struct state, inbound object and clock value, the
enriched record's `src_location`, `dest_location` and `timestamp` fields
equal the locally computed location strings (formatted from the latitude and
longitude fields of the decoded record) and the local ingestion time —
whatever values the inbound JSON supplied for those three fields are
overwritten and never reach the stored document. -/
theorem enrichment_overwrites :
    ∀ (p : Payload) (obj : List (String × JVal)) (now : DT),
      getField (enrich (unmarshal p obj) now) "src_location"
          = JVal.str (locString (getNum (unmarshal p obj) "src_latitude")
              (getNum (unmarshal p obj) "src_longitude"))
      ∧ getField (enrich (unmarshal p obj) now) "dest_location"
          = JVal.str (locString (getNum (unmarshal p obj) "dest_latitude")
              (getNum (unmarshal p obj) "dest_longitude"))
      ∧ getField (enrich (unmarshal p obj) now) "timestamp" = JVal.str (rfc3339 now) :=
  fun _ _ _ => ⟨rfl, rfl, rfl⟩

/-- C9: every iteration of the supervisor loop is followed by an identical
one (the loop has no terminal state and its body does not depend on the
iteration count, so there is no backoff, no jitter and no retry cap), each
iteration contains exactly one wait, of exactly 10 seconds, placed after the
disconnect signal and immediately before the next iteration's connection
attempt. -/
theorem supervisor_reconnect :
    (∀ (ch : String) (k : ℕ), supRun ch (k + 1) = supRun ch k ++ supLoopBody ch)
    ∧ (∀ (ch : String) (k : ℕ), (supRun ch k).length = 7 * k)
    ∧ (∀ ch : String, (supLoopBody ch).filter isSleep
        = [SupAction.sleepSeconds reconnectDelaySeconds])
    ∧ reconnectDelaySeconds = 10
    ∧ (∀ ch : String, (supLoopBody ch).getLast? = some (SupAction.sleepSeconds 10))
    ∧ (∀ ch : String,
        (supLoopBody ch).head? = some (SupAction.print "Connecting to hpfeeds server."))
    ∧ (∀ ch : String, (supLoopBody ch).drop 4
        = [SupAction.awaitDisconnect,
           SupAction.print "Disconnected, attempting to reconnect in 10 seconds...",
           SupAction.sleepSeconds 10]) := by
  refine ⟨fun ch k => rfl, ?_, fun ch => rfl, rfl, fun ch => rfl, fun ch => rfl,
    fun ch => rfl⟩
  intro ch k
  induction k with
  | zero => rfl
  | succ k ih =>
      rw [supRun, List.length_append, ih]
      rfl

/-- C1 counterexample: pulling exactly 100 messages from the queue does not
produce a flush call when the messages fail to decode — the `continue` taken
on an unmarshal error skips the `n % 100` check, so a session of 100
malformed messages reaches `n = 100` with zero flush calls, not the exactly
one call the claim requires. -/
theorem batch_threshold_cex :
    (consRun consInit (List.replicate 100 mIn)).2.1 = []
    ∧ (consRun consInit (List.replicate 100 mIn)).1.n = 100
    ∧ ¬((consRun consInit (List.replicate 100 mIn)).2.1.length = 1) := by
  decide

/-- C1 (amended): starting at a counter multiple of 100, a window of exactly
100 pulled messages (valid or invalid all counted) produces exactly one
flush call when the 100th message decodes successfully — the batch passed to
it being the buffer carried over from before the window followed by the
enriched records of the window's valid messages in arrival order — and no
flush call at all when the 100th message fails to decode; the counter
increments by exactly one per pulled message and is never reset. -/
theorem batch_threshold_amended (s t : ConsState) (i : Input)
    (front : List Input) (lastIn : Input)
    (h1 : s.n % 100 = 0) (h2 : front.length = 99) :
    (consRun s (front ++ [lastIn])).1.n = s.n + 100
    ∧ (consRun s (front ++ [lastIn])).2.1 =
        (match lastIn.msg with
         | .valid _ => [s.bulk ++ (collectDocs s.p (front ++ [lastIn])).1]
         | .malformed _ _ => [])
    ∧ (consStep t i).1.n = t.n + 1 := by
  have hfr : ∀ j, j < front.length → (s.n + j + 1) % 100 ≠ 0 := by
    intro j hj
    rw [h2] at hj
    omega
  obtain ⟨hn, hb, hp, hf⟩ := consRun_no_flush front s hfr
  obtain ⟨ha1, ha2⟩ := consRun_append front [lastIn] s
  rcases lastIn with ⟨m, now, res⟩
  cases m with
  | malformed raw filled =>
      refine ⟨?_, ?_, consStep_counter t i⟩
      · rw [ha1]
        simp [consRun, consStep_malformed, hn, h2]
      · rw [ha2, hf]
        simp [consRun, consStep_malformed]
  | valid obj =>
      have hflush : ((consRun s front).1.n + 1) % 100 = 0 := by
        rw [hn, h2]
        omega
      refine ⟨?_, ?_, consStep_counter t i⟩
      · rw [ha1]
        simp [consRun, consStep_valid_flush _ obj now res hflush, hn, h2]
      · rw [ha2, hf]
        simp only [consRun, consStep_valid_flush _ obj now res hflush,
          List.append_nil, List.nil_append]
        rw [hb, hp]
        obtain ⟨hc1, hc2⟩ := collect_append front [⟨.valid obj, now, res⟩] s.p
        rw [hc1]
        simp [collectDocs, List.append_assoc]

/-- C1 witness: the amended theorem applied to the initial state and a
concrete window of 99 syntactically malformed messages followed by one more
malformed message: the counter advances to 100 and no flush call is made. -/
theorem batch_threshold_amended_witness :
    consInit.n % 100 = 0
    ∧ (List.replicate 99 mIn).length = 99
    ∧ (consRun consInit (List.replicate 99 mIn ++ [mIn])).1.n = consInit.n + 100
    ∧ (consRun consInit (List.replicate 99 mIn ++ [mIn])).2.1 = []
    ∧ (consStep consInit mIn).1.n = consInit.n + 1 := by
  have h := batch_threshold_amended consInit consInit mIn (List.replicate 99 mIn) mIn
    rfl (by decide)
  exact ⟨rfl, by decide, h.1, h.2.1, h.2.2⟩

set_option maxRecDepth 4000 in
/-- C2 counterexample: after a flush attempt that fails with a transport
error the batch buffer is not empty — running 99 malformed messages and then
one valid message whose flush reply is a transport error leaves the single
accumulated record in the buffer (`length 1`, not the zero entries the claim
requires); the record of the failed flush is retained, not lost. -/
theorem flush_reset_cex :
    (consRun consInit c2in).2.1.map List.length = [1]
    ∧ (consRun consInit c2in).1.bulk.length = 1
    ∧ ¬((consRun consInit c2in).1.bulk.length = 0) := by
  decide

/-- C2 (amended): a flush attempt passes the whole accumulated batch to the
store, and afterwards the buffer is empty exactly when the bulk call
succeeded at the transport level (including responses reporting per-document
errors); after a transport error the batch is retained in full, to be
re-submitted as part of the next flush. -/
theorem flush_reset_amended (s : ConsState) (obj : List (String × JVal)) (now : DT)
    (res : FlushRes) (h : (s.n + 1) % 100 = 0) :
    (consStep s ⟨.valid obj, now, res⟩).2.1
        = [s.bulk ++ [buildReq (enrich (unmarshal s.p obj) now)]]
    ∧ (consStep s ⟨.valid obj, now, res⟩).1.bulk
        = (match res with
           | .transportErr => s.bulk ++ [buildReq (enrich (unmarshal s.p obj) now)]
           | .ok _ => []) := by
  rw [consStep_valid_flush s obj now res h]
  refine ⟨rfl, ?_⟩
  cases res with
  | transportErr => simp [doFlush, isEmpty_append_singleton]
  | ok failed => cases failed <;> simp [doFlush, isEmpty_append_singleton]

/-- C2 witness: the amended theorem at a concrete state one message short of
the boundary, with a transport-error reply: the flush call carries the one
accumulated record and the buffer afterwards still holds it. -/
theorem flush_reset_amended_witness :
    (s99.n + 1) % 100 = 0
    ∧ (consStep s99 ⟨.valid [], dt0, .transportErr⟩).2.1
        = [s99.bulk ++ [buildReq (enrich (unmarshal s99.p []) dt0)]]
    ∧ (consStep s99 ⟨.valid [], dt0, .transportErr⟩).1.bulk
        = s99.bulk ++ [buildReq (enrich (unmarshal s99.p []) dt0)] := by
  have h := flush_reset_amended s99 [] dt0 .transportErr (by decide)
  exact ⟨by decide, h.1, h.2⟩

/-- C3: the true parts of the claim hold on the scenario — the malformed
payload produces no record (one document in the buffer, from the valid
message only), its raw byte sequence is logged, and processing continues —
but decode isolation is violated: the malformed payload partially filled the
shared struct (`src_latitude = 99.5`), so the subsequent valid message that
carries no coordinates is enriched with `src_location =
"99.500000,0.000000"` instead of `"0.000000,0.000000"`. -/
theorem decode_isolation_bug :
    (consRun consInit [c3m1, c3m2]).2.2 = [.unmarshalErr, .rawPayload c3raw]
    ∧ (consRun consInit [c3m1, c3m2]).1.bulk.map
        (fun d => List.lookup "src_location" d.2)
        = [some (JVal.str "99.500000,0.000000")]
    ∧ ¬((consRun consInit [c3m1, c3m2]).1.bulk.map
        (fun d => List.lookup "src_location" d.2)
        = [some (JVal.str "0.000000,0.000000")]) := by
  decide

/-- C4: the first message carries lat 37.7749 / lon -122.4194 and its record
gets the claimed `"37.774900,-122.419400"`; but the second message, whose
coordinate fields are absent from the inbound JSON, does not get
`"0.000000,0.000000"` — the shared struct still holds the previous message's
coordinates, so its record repeats `"37.774900,-122.419400"`. -/
theorem stale_coordinates_bug :
    (consRun consInit [c4m1, c4m2]).1.bulk.map
        (fun d => List.lookup "src_location" d.2)
        = [some (JVal.str "37.774900,-122.419400"),
           some (JVal.str "37.774900,-122.419400")]
    ∧ ¬((consRun consInit [c4m1, c4m2]).1.bulk.map
        (fun d => List.lookup "src_location" d.2)
        = [some (JVal.str "37.774900,-122.419400"),
           some (JVal.str "0.000000,0.000000")]) := by
  decide

/-- C7 counterexample: for the inbound object with the honeypot-specific
field `honeypot_custom` outside the fixed struct schema, the outbound
document drops that field entirely, and it also contains the schema field
`direction` (with the zero value) that the inbound object never carried and
that is not one of the three enrichment fields — so the outbound document is
not the inbound object plus exactly the three enrichment fields. -/
theorem passthrough_cex :
    List.lookup "honeypot_custom"
        (marshalFields (enrich (unmarshal zeroPayload c7obj) dt0)) = none
    ∧ List.lookup "direction"
        (marshalFields (enrich (unmarshal zeroPayload c7obj) dt0))
        = some (JVal.str "")
    ∧ ¬("direction" ∈ c7obj.map Prod.fst) := by
  decide

/-- C7 (amended): the outbound document consists of the fixed schema's
fields only.  In one statement, for an arbitrary prior struct state, inbound
object (unique keys) and clock: an inbound field matching a schema field
without `omitempty` (by name and kind, not one of the three enrichment
fields) passes through to the outbound document unchanged; an inbound field
matching a schema field with `omitempty` is subject to the `omitempty` rule —
dropped when its value is zero, passed through unchanged otherwise; a schema
field without `omitempty` that is absent from the inbound object appears in
the outbound document with the shared struct's current (zero or stale)
value; and every inbound field whose name lies outside the schema is
dropped. -/
theorem passthrough_amended (p : Payload) (obj : List (String × JVal)) (now : DT)
    (k ko ka k2 : String) (v vo : JVal) (f fo fa : FieldSpec)
    (hnd : (obj.map Prod.fst).Nodup)
    (hf : f ∈ schema) (hk : f.name = k) (hkind : f.kind = kindOf v)
    (ho : f.omitEmpty = false) (hmem : (k, v) ∈ obj)
    (h1 : k ≠ "dest_location") (h2 : k ≠ "src_location") (h3 : k ≠ "timestamp")
    (hfo : fo ∈ schema) (hko : fo.name = ko) (hkindo : fo.kind = kindOf vo)
    (hoo : fo.omitEmpty = true) (hmemo : (ko, vo) ∈ obj)
    (ho1 : ko ≠ "dest_location") (ho2 : ko ≠ "src_location") (ho3 : ko ≠ "timestamp")
    (hfa : fa ∈ schema) (hka : fa.name = ka) (hoa : fa.omitEmpty = false)
    (habs : ka ∉ obj.map Prod.fst)
    (ha1 : ka ≠ "dest_location") (ha2 : ka ≠ "src_location") (ha3 : ka ≠ "timestamp")
    (hk2 : k2 ∉ schema.map (fun g => g.name)) :
    List.lookup k (marshalFields (enrich (unmarshal p obj) now)) = some v
    ∧ List.lookup ko (marshalFields (enrich (unmarshal p obj) now))
        = (if isZero vo = true then none else some vo)
    ∧ List.lookup ka (marshalFields (enrich (unmarshal p obj) now)) = some (p ka)
    ∧ List.lookup k2 (marshalFields (enrich (unmarshal p obj) now)) = none := by
  have hvalk : enrich (unmarshal p obj) now k = v := by
    rw [enrich_ne _ _ _ h1 h2 h3]
    exact unmarshal_mem obj p k v hmem hnd
      (by rw [schemaKind_of_mem f k hf hk, hkind])
  have hvalko : enrich (unmarshal p obj) now ko = vo := by
    rw [enrich_ne _ _ _ ho1 ho2 ho3]
    exact unmarshal_mem obj p ko vo hmemo hnd
      (by rw [schemaKind_of_mem fo ko hfo hko, hkindo])
  have hvalka : enrich (unmarshal p obj) now ka = p ka := by
    rw [enrich_ne _ _ _ ha1 ha2 ha3]
    exact unmarshal_not_mem obj p ka habs
  refine ⟨?_, ?_, ?_, ?_⟩
  · have hm := lookup_marshal_mem schema (enrich (unmarshal p obj) now) k f
      schema_names_nodup hf hk ho
    unfold marshalFields
    rw [hm, hvalk]
  · have hm := lookup_marshal_omit schema (enrich (unmarshal p obj) now) ko fo
      schema_names_nodup hfo hko hoo
    unfold marshalFields
    rw [hm, hvalko]
  · have hm := lookup_marshal_mem schema (enrich (unmarshal p obj) now) ka fa
      schema_names_nodup hfa hka hoa
    unfold marshalFields
    rw [hm, hvalka]
  · have hm := lookup_marshal_none schema (enrich (unmarshal p obj) now) k2 hk2
    unfold marshalFields
    exact hm

/-- C7 witness: the amended theorem at a concrete object — `app` (no
`omitempty`) passes through unchanged, `ssh_password` (`omitempty`, nonzero
value) passes through, the absent `direction` field appears with the shared
struct's current (zero) value, and `honeypot_custom`, outside the schema, is
dropped. -/
theorem passthrough_amended_witness :
    List.lookup "app" (marshalFields (enrich (unmarshal zeroPayload c7objFull) dt0))
        = some (JVal.str "cowrie")
    ∧ List.lookup "ssh_password"
        (marshalFields (enrich (unmarshal zeroPayload c7objFull) dt0))
        = some (JVal.str "hunter2")
    ∧ List.lookup "direction"
        (marshalFields (enrich (unmarshal zeroPayload c7objFull) dt0))
        = some (JVal.str "")
    ∧ List.lookup "honeypot_custom"
        (marshalFields (enrich (unmarshal zeroPayload c7objFull) dt0)) = none := by
  have h := passthrough_amended zeroPayload c7objFull dt0
    "app" "ssh_password" "direction" "honeypot_custom"
    (JVal.str "cowrie") (JVal.str "hunter2")
    ⟨"app", JKind.str, false⟩ ⟨"ssh_password", JKind.str, true⟩
    ⟨"direction", JKind.str, false⟩
    (by decide)
    (by decide) rfl rfl rfl (by decide)
    (by decide) (by decide) (by decide)
    (by decide) rfl rfl rfl (by decide)
    (by decide) (by decide) (by decide)
    (by decide) rfl rfl (by decide)
    (by decide) (by decide) (by decide)
    (by decide)
  exact ⟨h.1, h.2.1, h.2.2.1, h.2.2.2⟩

/-- C8: when a flush's bulk response succeeds overall but reports
per-document errors, the loop logs exactly the first failed document's error
detail (one failure log besides the batch announcement, even when several
documents failed), performs no per-document retry or quarantine — the buffer
is cleared, so every document of the batch is considered processed — and the
batch passed to the call was the whole accumulated buffer. -/
theorem partial_failure_logging (s : ConsState) (obj : List (String × JVal)) (now : DT)
    (e : String) (rest : List String) (h : (s.n + 1) % 100 = 0) :
    (consStep s ⟨.valid obj, now, .ok (e :: rest)⟩).2.2
        = [.processingBatch, .bulkFirstFailure e]
    ∧ (consStep s ⟨.valid obj, now, .ok (e :: rest)⟩).1.bulk = []
    ∧ (consStep s ⟨.valid obj, now, .ok (e :: rest)⟩).2.1
        = [s.bulk ++ [buildReq (enrich (unmarshal s.p obj) now)]] := by
  rw [consStep_valid_flush s obj now (.ok (e :: rest)) h]
  refine ⟨?_, ?_, rfl⟩ <;> simp [doFlush, isEmpty_append_singleton]

/-- C8 witness: the theorem at a concrete boundary state and a two-failure
response: only the first failure is logged and the buffer is cleared. -/
theorem partial_failure_logging_witness :
    (s99.n + 1) % 100 = 0
    ∧ (consStep s99 ⟨.valid [], dt0, .ok ["mapper parsing error", "second error"]⟩).2.2
        = [.processingBatch, .bulkFirstFailure "mapper parsing error"]
    ∧ (consStep s99 ⟨.valid [], dt0,
        .ok ["mapper parsing error", "second error"]⟩).1.bulk = [] := by
  have h := partial_failure_logging s99 [] dt0 "mapper parsing error" ["second error"]
    (by decide)
  exact ⟨by decide, h.1, h.2.1⟩
